import Mathlib

/-!
Verification of the device staging store, coordinate mapper, selection
reconciler, orientation parser and scene image loader of the web-sionna
frontend.  Every definition is a shallow embedding of the corresponding
TypeScript function (file and symbol named on each definition); numbers
that are IEEE doubles in the source are modelled as rationals, and
JavaScript `Math.round` as `jround` below.
-/

/-- JavaScript `Math.round`: round half towards positive infinity. -/
def jround (q : ℚ) : ℤ := ⌊q + 1/2⌋

/-- Frontend device record (`src/frontend/src/App.tsx`, `interface Device`).
Optional fields of the TypeScript interface are `Option`s. -/
structure Device where
  id : ℤ
  name : String
  position_x : ℚ
  position_y : ℚ
  position_z : ℚ
  orientation_x : Option ℚ
  orientation_y : Option ℚ
  orientation_z : Option ℚ
  power_dbm : Option ℚ
  active : Bool
  role : String
deriving DecidableEq, Repr

/-- One step of the `forEach` loop of `countActiveDevices`
(`App.tsx` lines 55-63). -/
def countStep (acc : ℕ × ℕ) (d : Device) : ℕ × ℕ :=
  if d.active then
    if d.role == "desired" then (acc.1 + 1, acc.2)
    else if d.role == "receiver" then (acc.1, acc.2 + 1)
    else acc
  else acc

/-- `countActiveDevices` (`App.tsx` lines 50-65): counts of active devices
with role `desired` (first component) and role `receiver` (second),
accumulated over the list exactly as the source's `forEach` does. -/
def countActiveDevices (deviceList : List Device) : ℕ × ℕ :=
  deviceList.foldl countStep (0, 0)

/-- Device `d` counts as an active transmitter. -/
def isActiveTx (d : Device) : Bool := d.active && d.role == "desired"

/-- Device `d` counts as an active receiver. -/
def isActiveRx (d : Device) : Bool := d.active && d.role == "receiver"

lemma countStep_eq (a b : ℕ) (d : Device) :
    countStep (a, b) d
      = (a + (if isActiveTx d then 1 else 0), b + (if isActiveRx d then 1 else 0)) := by
  unfold countStep isActiveTx isActiveRx
  by_cases hact : d.active
  · by_cases hdes : d.role == "desired"
    · have hr : (d.role == "receiver") = false := by
        rw [eq_of_beq hdes]; decide
      simp [hact, hdes, hr]
    · by_cases hrx : d.role == "receiver" <;> simp [hact, hdes, hrx]
  · simp [hact]

lemma countActiveDevices_foldl_shift (l : List Device) (a b : ℕ) :
    l.foldl countStep (a, b)
    = (a + (l.filter isActiveTx).length, b + (l.filter isActiveRx).length) := by
  induction l generalizing a b with
  | nil => simp
  | cons d rest ih =>
      rw [List.foldl_cons, countStep_eq, ih, List.filter_cons, List.filter_cons]
      by_cases h1 : isActiveTx d <;> by_cases h2 : isActiveRx d <;>
        simp [h1, h2] <;> omega

lemma countActiveDevices_eq (l : List Device) :
    countActiveDevices l
      = ((l.filter isActiveTx).length, (l.filter isActiveRx).length) := by
  simpa [countActiveDevices] using countActiveDevices_foldl_shift l 0 0

lemma countActiveDevices_fst_pos (l : List Device)
    (h : 1 ≤ (countActiveDevices l).1) : ∃ d ∈ l, isActiveTx d = true := by
  rw [countActiveDevices_eq] at h
  rcases List.exists_mem_of_length_pos (Nat.lt_of_lt_of_le Nat.zero_lt_one h)
    with ⟨d, hd⟩
  exact ⟨d, (List.mem_filter.mp hd).1, (List.mem_filter.mp hd).2⟩

lemma countActiveDevices_snd_pos (l : List Device)
    (h : 1 ≤ (countActiveDevices l).2) : ∃ d ∈ l, isActiveRx d = true := by
  rw [countActiveDevices_eq] at h
  rcases List.exists_mem_of_length_pos (Nat.lt_of_lt_of_le Nat.zero_lt_one h)
    with ⟨d, hd⟩
  exact ⟨d, (List.mem_filter.mp hd).1, (List.mem_filter.mp hd).2⟩

lemma countActiveDevices_fst_pos_of_mem (l : List Device) (d : Device)
    (hd : d ∈ l) (h : isActiveTx d = true) : 1 ≤ (countActiveDevices l).1 := by
  rw [countActiveDevices_eq]
  exact List.length_pos.mpr (List.ne_nil_of_mem (List.mem_filter.mpr ⟨hd, h⟩))

lemma countActiveDevices_snd_pos_of_mem (l : List Device) (d : Device)
    (hd : d ∈ l) (h : isActiveRx d = true) : 1 ≤ (countActiveDevices l).2 := by
  rw [countActiveDevices_eq]
  exact List.length_pos.mpr (List.ne_nil_of_mem (List.mem_filter.mpr ⟨hd, h⟩))

/-- Payload sent to the backend for create/update
(`App.tsx`, the `backendData` object in `handleApply`): positions are
rounded with `Math.round`, everything else is copied. -/
structure DevicePayload where
  name : String
  position_x : ℤ
  position_y : ℤ
  position_z : ℤ
  orientation_x : Option ℚ
  orientation_y : Option ℚ
  orientation_z : Option ℚ
  role : String
  power_dbm : Option ℚ
  active : Bool
deriving DecidableEq, Repr

/-- Builds the `backendData` payload from a frontend device
(`App.tsx` lines 226-237 and 279-290). -/
def toBackendData (d : Device) : DevicePayload :=
  { name := d.name
    position_x := jround d.position_x
    position_y := jround d.position_y
    position_z := jround d.position_z
    orientation_x := d.orientation_x
    orientation_y := d.orientation_y
    orientation_z := d.orientation_z
    role := d.role
    power_dbm := d.power_dbm
    active := d.active }

/-- The device record the backend stores for a payload under id `i`
(REST semantics of §6: `POST /devices` assigns the id, `PUT` keeps it). -/
def payloadToDevice (p : DevicePayload) (i : ℤ) : Device :=
  { id := i
    name := p.name
    position_x := (p.position_x : ℚ)
    position_y := (p.position_y : ℚ)
    position_z := (p.position_z : ℚ)
    orientation_x := p.orientation_x
    orientation_y := p.orientation_y
    orientation_z := p.orientation_z
    power_dbm := p.power_dbm
    active := p.active
    role := p.role }

/-- Network calls the frontend can issue for devices (§6 of the spec). -/
inductive NetCall where
  | create (p : DevicePayload)
  | update (id : ℤ) (p : DevicePayload)
  | delete (id : ℤ)
deriving DecidableEq, Repr

/-- In-memory model of the backend device store: a device list plus the
next id the `SERIAL` primary key will assign (backend `doc/db.md`). -/
structure Server where
  devices : List Device
  nextId : ℤ
deriving DecidableEq, Repr

/-- `POST /devices`: append the payload under a server-assigned fresh id. -/
def Server.create (sv : Server) (p : DevicePayload) : Server :=
  { devices := sv.devices ++ [payloadToDevice p sv.nextId]
    nextId := sv.nextId + 1 }

/-- `PUT /devices/{id}`: replace the stored device with that id; fails
(404) when no such device exists. -/
def Server.update (sv : Server) (i : ℤ) (p : DevicePayload) : Option Server :=
  if sv.devices.any (fun d => d.id == i) then
    some { sv with
      devices := sv.devices.map (fun d => if d.id == i then payloadToDevice p i else d) }
  else none

/-- `DELETE /devices/{id}`: drop every stored device with that id. -/
def Server.erase (sv : Server) (i : ℤ) : Server :=
  { sv with devices := sv.devices.filter (fun d => d.id != i) }

/-- Result of `handleDeleteDevice` (`App.tsx` lines 357-416): the two device
lists after the handler, the network calls it issued and the server state. -/
structure DeleteResult where
  staged : List Device
  committed : List Device
  calls : List NetCall
  server : Server
deriving DecidableEq, Repr

/-- `handleDeleteDevice` (`App.tsx` lines 357-416).  `connected` models
`apiStatus === 'connected'` and `confirm` the `window.confirm` answer; the
delete network call is modelled as succeeding (its failure path leaves the
lists unchanged and is irrelevant to the claims below). -/
def handleDeleteDevice (i : ℤ) (tempDevices originalDevices : List Device)
    (connected confirm : Bool) (sv : Server) : DeleteResult :=
  if i < 0 then
    { staged := tempDevices.filter (fun d => d.id != i)
      committed := originalDevices
      calls := []
      server := sv }
  else
    let devicesAfterDelete := tempDevices.filter (fun d => d.id != i)
    let c := countActiveDevices devicesAfterDelete
    if c.1 < 1 ∨ c.2 < 1 then
      { staged := tempDevices, committed := originalDevices, calls := [], server := sv }
    else if !connected then
      { staged := tempDevices, committed := originalDevices, calls := [], server := sv }
    else if !confirm then
      { staged := tempDevices, committed := originalDevices, calls := [], server := sv }
    else
      { staged := tempDevices.filter (fun d => d.id != i)
        committed := originalDevices.filter (fun d => d.id != i)
        calls := [NetCall.delete i]
        server := sv.erase i }

/-- C2: for every non-negative (committed) id, if removing the device with
that id from the staged list would leave zero active transmitters or zero
active receivers, `handleDeleteDevice` rejects: both lists are returned
unchanged, no network call is issued and the server is untouched. -/
theorem deleteDevice_rejected_preserves_lists
    (i : ℤ) (tempDevices originalDevices : List Device)
    (connected confirm : Bool) (sv : Server)
    (hid : 0 ≤ i)
    (hinv : (countActiveDevices (tempDevices.filter (fun d => d.id != i))).1 = 0
          ∨ (countActiveDevices (tempDevices.filter (fun d => d.id != i))).2 = 0) :
    handleDeleteDevice i tempDevices originalDevices connected confirm sv
      = { staged := tempDevices, committed := originalDevices
          calls := [], server := sv } := by
  unfold handleDeleteDevice
  rw [if_neg (not_lt.mpr hid), if_pos]
  rcases hinv with h | h
  · exact Or.inl (by omega)
  · exact Or.inr (by omega)

/-- Witness for C2: deleting the only active receiver (id 1) is rejected and
leaves the device list unchanged. -/
theorem deleteDevice_rejected_witness :
    handleDeleteDevice 1
      [{ id := 1, name := "rx1", position_x := 0, position_y := 0, position_z := 40
         orientation_x := some 0, orientation_y := some 0, orientation_z := some 0
         power_dbm := some 0, active := true, role := "receiver" },
       { id := 2, name := "tx1", position_x := 0, position_y := 0, position_z := 40
         orientation_x := some 0, orientation_y := some 0, orientation_z := some 0
         power_dbm := some 0, active := true, role := "desired" }]
      [{ id := 1, name := "rx1", position_x := 0, position_y := 0, position_z := 40
         orientation_x := some 0, orientation_y := some 0, orientation_z := some 0
         power_dbm := some 0, active := true, role := "receiver" },
       { id := 2, name := "tx1", position_x := 0, position_y := 0, position_z := 40
         orientation_x := some 0, orientation_y := some 0, orientation_z := some 0
         power_dbm := some 0, active := true, role := "desired" }]
      true true { devices := [], nextId := 3 }
      = { staged :=
            [{ id := 1, name := "rx1", position_x := 0, position_y := 0, position_z := 40
               orientation_x := some 0, orientation_y := some 0, orientation_z := some 0
               power_dbm := some 0, active := true, role := "receiver" },
             { id := 2, name := "tx1", position_x := 0, position_y := 0, position_z := 40
               orientation_x := some 0, orientation_y := some 0, orientation_z := some 0
               power_dbm := some 0, active := true, role := "desired" }]
          committed :=
            [{ id := 1, name := "rx1", position_x := 0, position_y := 0, position_z := 40
               orientation_x := some 0, orientation_y := some 0, orientation_z := some 0
               power_dbm := some 0, active := true, role := "receiver" },
             { id := 2, name := "tx1", position_x := 0, position_y := 0, position_z := 40
               orientation_x := some 0, orientation_y := some 0, orientation_z := some 0
               power_dbm := some 0, active := true, role := "desired" }]
          calls := [], server := { devices := [], nextId := 3 } } :=
  deleteDevice_rejected_preserves_lists 1 _ _ true true _ (by decide) (by decide)

/-- The staged devices `handleApply` will create
(`App.tsx` line 196: `tempDevices.filter((device) => device.id < 0)`). -/
def newDevicesOf (tempDevices : List Device) : List Device :=
  tempDevices.filter (fun d => decide (d.id < 0))

/-- The filter predicate of the update partition of `handleApply`
(`App.tsx` lines 199-214): id strictly positive (`id <= 0` is filtered
out) and either no committed entry with the same id exists or the device
differs from it under full structural comparison (`JSON.stringify`
inequality in the source). -/
def updFlag (originalDevices : List Device) (d : Device) : Bool :=
  if d.id ≤ 0 then false
  else
    match originalDevices.find? (fun org => org.id == d.id) with
    | none => true
    | some org => d != org

/-- The staged devices `handleApply` will update (`App.tsx` lines 199-214). -/
def stagedUpdates (tempDevices originalDevices : List Device) : List Device :=
  tempDevices.filter (updFlag originalDevices)

/-- The create loop of `handleApply` (`App.tsx` lines 223-275): issues one
`POST` per new device, in staged-list order, returning the resulting server
state and the calls issued.  Creation is modelled as succeeding. -/
def runCreates (sv : Server) (ds : List Device) : Server × List NetCall :=
  match ds with
  | [] => (sv, [])
  | d :: rest =>
      let res := runCreates (sv.create (toBackendData d)) rest
      (res.1, NetCall.create (toBackendData d) :: res.2)

/-- The update loop of `handleApply` (`App.tsx` lines 278-328): issues one
`PUT` per changed device, in staged-list order; a failing update (missing
id on the server) aborts the remaining batch.  Returns the server state
reached, whether the whole batch succeeded, and the calls issued. -/
def runUpdates (sv : Server) (ds : List Device) : Server × Bool × List NetCall :=
  match ds with
  | [] => (sv, true, [])
  | d :: rest =>
      match sv.update d.id (toBackendData d) with
      | none => (sv, false, [NetCall.update d.id (toBackendData d)])
      | some sv' =>
          let res := runUpdates sv' rest
          (res.1, res.2.1, NetCall.update d.id (toBackendData d) :: res.2.2)

/-- Outcome of one `handleApply` run. -/
inductive ApplyOutcome where
  /-- The invariant check on the staged list failed; nothing was sent. -/
  | rejected
  /-- No creates and no updates were detected; nothing was sent. -/
  | noChanges
  /-- A create/update failed; the remaining batch was aborted and the local
  lists were left unchanged (no rollback of already persisted writes). -/
  | failed
  /-- All calls succeeded and both lists were replaced by a fresh fetch. -/
  | success
deriving DecidableEq, Repr

/-- Result of `handleApply`: outcome, server state after the issued calls,
the two local lists after the handler, and the calls issued in order. -/
structure ApplyResult where
  outcome : ApplyOutcome
  server : Server
  staged : List Device
  committed : List Device
  calls : List NetCall
deriving DecidableEq, Repr

/-- `handleApply` (`App.tsx` lines 173-347).  The invariant is checked on the
staged list before anything is sent; then creates run strictly before
updates; on full success both lists are replaced by a fresh `GET /devices`
(modelled by the server's device list). -/
def handleApply (tempDevices originalDevices : List Device) (sv : Server) :
    ApplyResult :=
  let c := countActiveDevices tempDevices
  if c.1 < 1 ∨ c.2 < 1 then
    { outcome := .rejected, server := sv
      staged := tempDevices, committed := originalDevices, calls := [] }
  else
    let newDevices := newDevicesOf tempDevices
    let devicesToUpdate := stagedUpdates tempDevices originalDevices
    if newDevices.isEmpty && devicesToUpdate.isEmpty then
      { outcome := .noChanges, server := sv
        staged := tempDevices, committed := originalDevices, calls := [] }
    else
      let created := runCreates sv newDevices
      let updated := runUpdates created.1 devicesToUpdate
      if updated.2.1 then
        { outcome := .success, server := updated.1
          staged := updated.1.devices, committed := updated.1.devices
          calls := created.2 ++ updated.2.2 }
      else
        { outcome := .failed, server := updated.1
          staged := tempDevices, committed := originalDevices
          calls := created.2 ++ updated.2.2 }

/-- The devices the create loop appends to the server, starting at id `i`. -/
def createdDevices (i : ℤ) : List Device → List Device
  | [] => []
  | d :: rest => payloadToDevice (toBackendData d) i :: createdDevices (i + 1) rest

lemma runCreates_fst_devices (ds : List Device) :
    ∀ sv : Server,
      (runCreates sv ds).1.devices = sv.devices ++ createdDevices sv.nextId ds := by
  induction ds with
  | nil => intro sv; simp [runCreates, createdDevices]
  | cons d rest ih =>
      intro sv
      simp only [runCreates, createdDevices, ih, Server.create,
        List.append_assoc, List.singleton_append]

lemma createdDevices_id_ge (ds : List Device) :
    ∀ i : ℤ, ∀ e ∈ createdDevices i ds, i ≤ e.id := by
  induction ds with
  | nil => intro i e he; simp [createdDevices] at he
  | cons d rest ih =>
      intro i e he
      rcases (List.mem_cons).mp he with rfl | hmem
      · exact le_refl _
      · exact le_trans (by omega) (ih (i + 1) e hmem)

lemma createdDevices_mem_of_mem (d : Device) (ds : List Device) (hd : d ∈ ds) :
    ∀ i : ℤ, ∃ j, i ≤ j ∧
      payloadToDevice (toBackendData d) j ∈ createdDevices i ds := by
  induction ds with
  | nil => cases hd
  | cons a rest ih =>
      intro i
      rcases (List.mem_cons).mp hd with rfl | hmem
      · exact ⟨i, le_refl i, List.mem_cons_self _ _⟩
      · rcases ih hmem (i + 1) with ⟨j, hj, hmemj⟩
        exact ⟨j, by omega, List.mem_cons_of_mem _ hmemj⟩

lemma Server.update_devices {sv : Server} {i : ℤ} {p : DevicePayload}
    {sv' : Server} (h : sv.update i p = some sv') :
    sv'.devices
      = sv.devices.map (fun x => if x.id == i then payloadToDevice p i else x) := by
  unfold Server.update at h
  split at h
  · obtain rfl := Option.some.inj h
    rfl
  · cases h

lemma Server.update_mem_payload {sv : Server} {i : ℤ} {p : DevicePayload}
    {sv' : Server} (h : sv.update i p = some sv') :
    payloadToDevice p i ∈ sv'.devices := by
  unfold Server.update at h
  split at h
  case isTrue hany =>
      obtain rfl := Option.some.inj h
      rcases List.any_eq_true.mp hany with ⟨x, hx, hxi⟩
      exact List.mem_map.mpr ⟨x, hx, by simp [hxi]⟩
  case isFalse => cases h

lemma runUpdates_preserve (us : List Device) :
    ∀ sv : Server, (runUpdates sv us).2.1 = true →
      ∀ e ∈ sv.devices, (∀ u ∈ us, u.id ≠ e.id) →
        e ∈ (runUpdates sv us).1.devices := by
  induction us with
  | nil => intro sv _ e he _; simpa [runUpdates] using he
  | cons u rest ih =>
      intro sv hok e he hne
      cases hu : sv.update u.id (toBackendData u) with
      | none => rw [runUpdates, hu] at hok; cases hok
      | some sv' =>
          rw [runUpdates, hu] at hok ⊢
          have he' : e ∈ sv'.devices := by
            rw [Server.update_devices hu]
            refine List.mem_map.mpr ⟨e, he, ?_⟩
            have : (e.id == u.id) = false :=
              beq_eq_false_iff_ne.mpr fun hcontra =>
                hne u (List.mem_cons_self _ _) hcontra.symm
            simp [this]
          exact ih sv' hok e he'
            (fun w hw => hne w (List.mem_cons_of_mem _ hw))

lemma runUpdates_mem (us : List Device) :
    ∀ sv : Server, (us.map Device.id).Nodup → (runUpdates sv us).2.1 = true →
      ∀ u ∈ us,
        payloadToDevice (toBackendData u) u.id ∈ (runUpdates sv us).1.devices := by
  induction us with
  | nil => intro sv _ _ u hu; cases hu
  | cons v rest ih =>
      intro sv hnd hok u hu
      cases hv : sv.update v.id (toBackendData v) with
      | none => rw [runUpdates, hv] at hok; cases hok
      | some sv' =>
          rw [runUpdates, hv] at hok ⊢
          rcases (List.mem_cons).mp hu with rfl | hmem
          · refine runUpdates_preserve rest sv' hok _
              (Server.update_mem_payload hv) ?_
            intro w hw hcontra
            have : u.id ∈ rest.map Device.id :=
              List.mem_map.mpr ⟨w, hw, hcontra⟩
            exact (List.nodup_cons.mp hnd).1 this
          · exact ih sv' (List.nodup_cons.mp hnd).2 hok u hmem

lemma filter_sublist_filter_of_imp {α : Type} (l : List α) {p q : α → Bool}
    (h : ∀ a, p a = true → q a = true) :
    List.Sublist (l.filter p) (l.filter q) := by
  induction l with
  | nil => simp
  | cons a t ih =>
      by_cases hp : p a
      · rw [List.filter_cons_of_pos hp, List.filter_cons_of_pos (h a hp)]
        exact ih.cons₂ a
      · rw [List.filter_cons_of_neg hp]
        by_cases hq : q a
        · rw [List.filter_cons_of_pos hq]
          exact ih.cons a
        · rw [List.filter_cons_of_neg hq]
          exact ih

lemma updFlag_pos {cm : List Device} {d : Device} (h : updFlag cm d = true) :
    0 < d.id := by
  unfold updFlag at h
  by_cases hle : d.id ≤ 0
  · rw [if_pos hle] at h; cases h
  · omega

lemma apply_run_preserves (pr : Device → Bool)
    (hp : ∀ (d : Device) (i : ℤ), pr (payloadToDevice (toBackendData d) i) = pr d)
    (st cm : List Device) (sv : Server)
    (h0 : ∀ d ∈ st, d.id ≠ 0)
    (hnd : ((st.filter (fun d => decide (0 < d.id))).map Device.id).Nodup)
    (hcm : sv.devices = cm)
    (hfresh : ∀ d ∈ st, d.id < sv.nextId)
    (d : Device) (hd : d ∈ st) (hpd : pr d = true)
    (hok : (runUpdates (runCreates sv (newDevicesOf st)).1
              (stagedUpdates st cm)).2.1 = true) :
    ∃ e ∈ (runUpdates (runCreates sv (newDevicesOf st)).1
            (stagedUpdates st cm)).1.devices, pr e = true := by
  have hsv1dev : (runCreates sv (newDevicesOf st)).1.devices
      = sv.devices ++ createdDevices sv.nextId (newDevicesOf st) :=
    runCreates_fst_devices _ sv
  have hupds_nodup : ((stagedUpdates st cm).map Device.id).Nodup := by
    have hsub :=
      filter_sublist_filter_of_imp st
        (p := updFlag cm) (q := fun x => decide (0 < x.id))
        (fun a ha => decide_eq_true (updFlag_pos ha))
    exact (hsub.map Device.id).nodup hnd
  rcases lt_trichotomy d.id 0 with hneg | hzero | hpos
  · -- pending create: the created copy survives the update loop
    have hdnew : d ∈ newDevicesOf st :=
      List.mem_filter.mpr ⟨hd, decide_eq_true hneg⟩
    obtain ⟨j, hj, hjmem⟩ := createdDevices_mem_of_mem d _ hdnew sv.nextId
    refine ⟨payloadToDevice (toBackendData d) j, ?_, by rw [hp]; exact hpd⟩
    refine runUpdates_preserve _ _ hok _ ?_ ?_
    · rw [hsv1dev]; exact List.mem_append_right _ hjmem
    · intro u hu
      have hu_st : u ∈ st := (List.mem_filter.mp hu).1
      have hu_lt := hfresh u hu_st
      show u.id ≠ (payloadToDevice (toBackendData d) j).id
      have hpj : (payloadToDevice (toBackendData d) j).id = j := rfl
      omega
  · exact absurd hzero (h0 d hd)
  · by_cases hflag : updFlag cm d = true
    · -- pending update: the updated copy is on the server at the end
      have hdupd : d ∈ stagedUpdates st cm := List.mem_filter.mpr ⟨hd, hflag⟩
      exact ⟨payloadToDevice (toBackendData d) d.id,
        runUpdates_mem _ _ hupds_nodup hok d hdupd, by rw [hp]; exact hpd⟩
    · -- unchanged persisted device: its committed copy is never touched
      have hfb : updFlag cm d = false := Bool.eq_false_iff.mpr hflag
      unfold updFlag at hfb
      rw [if_neg (by omega : ¬ d.id ≤ 0)] at hfb
      cases hfind : cm.find? (fun org => org.id == d.id) with
      | none => rw [hfind] at hfb; cases hfb
      | some org =>
          rw [hfind] at hfb
          have hdo : d = org := by simpa using hfb
          have hdcm : d ∈ cm := hdo ▸ List.mem_of_find?_eq_some hfind
          refine ⟨d, ?_, hpd⟩
          refine runUpdates_preserve _ _ hok _ ?_ ?_
          · rw [hsv1dev]
            exact List.mem_append_left _ (hcm ▸ hdcm)
          · intro u hu hcontra
            have hu_st := (List.mem_filter.mp hu).1
            have huflag := (List.mem_filter.mp hu).2
            have hu_pos := updFlag_pos huflag
            have hu_in : u ∈ st.filter (fun x => decide (0 < x.id)) :=
              List.mem_filter.mpr ⟨hu_st, decide_eq_true hu_pos⟩
            have hd_in : d ∈ st.filter (fun x => decide (0 < x.id)) :=
              List.mem_filter.mpr ⟨hd, decide_eq_true hpos⟩
            have hud : u = d :=
              List.inj_on_of_nodup_map hnd hu_in hd_in hcontra
            exact hflag (hud ▸ huflag)

/-- C1 (amended): the invariant is recomputed over the staged list; when it
fails, `handleApply` rejects with no network call and both lists unchanged.
Moreover, whenever no staged id is zero, the positive staged ids are
pairwise distinct, the committed list is the server's list, and the server
assigns ids above every staged id, a successful apply never leaves the
refetched list with zero active transmitters or zero active receivers. -/
theorem handleApply_never_zero_active (st cm : List Device) (sv : Server) :
    ((countActiveDevices st).1 = 0 ∨ (countActiveDevices st).2 = 0 →
        handleApply st cm sv
          = { outcome := .rejected, server := sv, staged := st
              committed := cm, calls := [] })
    ∧ ((∀ d ∈ st, d.id ≠ 0) →
       ((st.filter (fun d => decide (0 < d.id))).map Device.id).Nodup →
       sv.devices = cm →
       (∀ d ∈ st, d.id < sv.nextId) →
       (handleApply st cm sv).outcome = .success →
         1 ≤ (countActiveDevices (handleApply st cm sv).staged).1
         ∧ 1 ≤ (countActiveDevices (handleApply st cm sv).staged).2) := by
  constructor
  · intro h
    have hc : (countActiveDevices st).1 < 1 ∨ (countActiveDevices st).2 < 1 := by
      omega
    simp only [handleApply]
    rw [if_pos hc]
  · intro h0 hnd hcm hfresh hsucc
    by_cases hc : (countActiveDevices st).1 < 1 ∨ (countActiveDevices st).2 < 1
    · exfalso
      simp only [handleApply] at hsucc
      rw [if_pos hc] at hsucc
      exact ApplyOutcome.noConfusion hsucc
    · have htx1 : 1 ≤ (countActiveDevices st).1 := by omega
      have hrx1 : 1 ≤ (countActiveDevices st).2 := by omega
      by_cases hne : (newDevicesOf st).isEmpty && (stagedUpdates st cm).isEmpty
      · exfalso
        simp only [handleApply] at hsucc
        rw [if_neg hc, if_pos hne] at hsucc
        exact ApplyOutcome.noConfusion hsucc
      · by_cases hok : (runUpdates (runCreates sv (newDevicesOf st)).1
            (stagedUpdates st cm)).2.1
        · have hstaged : (handleApply st cm sv).staged
              = (runUpdates (runCreates sv (newDevicesOf st)).1
                  (stagedUpdates st cm)).1.devices := by
            simp only [handleApply]
            rw [if_neg hc, if_neg hne, if_pos hok]
          obtain ⟨dtx, hdtx, htx⟩ := countActiveDevices_fst_pos st htx1
          obtain ⟨drx, hdrx, hrx⟩ := countActiveDevices_snd_pos st hrx1
          constructor
          · obtain ⟨e, he, hpe⟩ := apply_run_preserves isActiveTx
              (fun _ _ => rfl) st cm sv h0 hnd hcm hfresh dtx hdtx htx hok
            rw [hstaged]
            exact countActiveDevices_fst_pos_of_mem _ e he hpe
          · obtain ⟨e, he, hpe⟩ := apply_run_preserves isActiveRx
              (fun _ _ => rfl) st cm sv h0 hnd hcm hfresh drx hdrx hrx hok
            rw [hstaged]
            exact countActiveDevices_snd_pos_of_mem _ e he hpe
        · exfalso
          simp only [handleApply] at hsucc
          rw [if_neg hc, if_neg hne, if_neg hok] at hsucc
          exact ApplyOutcome.noConfusion hsucc

/-- Concrete device literal used by witnesses and counterexamples. -/
def mkDev (i : ℤ) (nm : String) (act : Bool) (rl : String) : Device :=
  { id := i, name := nm, position_x := 0, position_y := 0, position_z := 40
    orientation_x := some 0, orientation_y := some 0, orientation_z := some 0
    power_dbm := some 0, active := act, role := rl }

def rxW : Device := mkDev 1 "rx1" true "receiver"

def txWs : Device := mkDev 2 "tx9" true "desired"

def txWc : Device := mkDev 2 "tx1" true "desired"

def zTxStaged : Device := mkDev 0 "tx0" true "desired"

def zTxCommitted : Device := mkDev 0 "tx0" false "desired"

def zRxStaged : Device := mkDev 1 "rxB" true "receiver"

def zRxCommitted : Device := mkDev 1 "rxA" true "receiver"

def tmpNeg : Device := mkDev (-5) "rx2" true "receiver"

/-- Witness for C1: a staged list with no active receiver is rejected with
no side effects, and a well-formed successful apply (here: renaming the
only transmitter) ends with at least one active transmitter and receiver. -/
theorem handleApply_never_zero_active_witness :
    handleApply [txWc] [] { devices := [], nextId := 3 }
      = { outcome := .rejected, server := { devices := [], nextId := 3 }
          staged := [txWc], committed := [], calls := [] }
    ∧ (1 ≤ (countActiveDevices (handleApply [rxW, txWs] [rxW, txWc]
              { devices := [rxW, txWc], nextId := 3 }).staged).1
       ∧ 1 ≤ (countActiveDevices (handleApply [rxW, txWs] [rxW, txWc]
              { devices := [rxW, txWc], nextId := 3 }).staged).2) :=
  ⟨(handleApply_never_zero_active [txWc] [] { devices := [], nextId := 3 }).1
      (by decide),
   (handleApply_never_zero_active [rxW, txWs] [rxW, txWc]
      { devices := [rxW, txWc], nextId := 3 }).2
      (by decide) (by decide) (by decide) (by decide) (by decide)⟩

/-- Counterexample for C1 as stated: with a (differing) persisted device of
id `0` staged, the invariant check passes (one active transmitter, one
active receiver staged), apply succeeds, yet the refetched list has zero
active transmitters — the id-0 device is in neither partition, so the
server keeps its inactive copy. -/
theorem handleApply_zero_id_counterexample :
    (countActiveDevices [zTxStaged, zRxStaged]).1 = 1
    ∧ (countActiveDevices [zTxStaged, zRxStaged]).2 = 1
    ∧ (handleApply [zTxStaged, zRxStaged] [zTxCommitted, zRxCommitted]
        { devices := [zTxCommitted, zRxCommitted], nextId := 2 }).outcome
        = .success
    ∧ (countActiveDevices (handleApply [zTxStaged, zRxStaged]
        [zTxCommitted, zRxCommitted]
        { devices := [zTxCommitted, zRxCommitted], nextId := 2 }).staged).1
        = 0 := by
  decide

lemma runCreates_snd_calls (ds : List Device) :
    ∀ sv : Server,
      (runCreates sv ds).2 = ds.map (fun d => NetCall.create (toBackendData d)) := by
  induction ds with
  | nil => intro sv; rfl
  | cons d rest ih => intro sv; simp only [runCreates, ih, List.map_cons]

lemma runUpdates_snd_calls (ds : List Device) :
    ∀ sv : Server, (runUpdates sv ds).2.1 = true →
      (runUpdates sv ds).2.2
        = ds.map (fun d => NetCall.update d.id (toBackendData d)) := by
  induction ds with
  | nil => intro sv _; rfl
  | cons d rest ih =>
      intro sv hok
      cases hu : sv.update d.id (toBackendData d) with
      | none => rw [runUpdates, hu] at hok; cases hok
      | some sv' =>
          rw [runUpdates, hu] at hok ⊢
          simp only [List.map_cons, ih sv' hok]

/-- Whether a network call is a device creation. -/
def NetCall.isCreate : NetCall → Bool
  | .create _ => true
  | _ => false

/-- Whether a network call is a device update. -/
def NetCall.isUpdate : NetCall → Bool
  | .update _ _ => true
  | _ => false

lemma updFlag_iff (cm : List Device) (d : Device) :
    updFlag cm d = true
      ↔ 0 < d.id
        ∧ (cm.find? (fun org => org.id == d.id) = none
           ∨ ∃ org, cm.find? (fun org2 => org2.id == d.id) = some org ∧ d ≠ org) := by
  unfold updFlag
  by_cases hle : d.id ≤ 0
  · rw [if_pos hle]
    constructor
    · intro h; cases h
    · rintro ⟨h1, _⟩; omega
  · rw [if_neg hle]
    have hpos : 0 < d.id := by omega
    cases hfind : cm.find? (fun org => org.id == d.id) with
    | none => simp [hpos]
    | some org => simp [hpos, bne_iff_ne]

/-- C4 (amended): on a fully successful apply, the calls issued are exactly
one create per staged device with negative id followed by one update per
staged device with strictly positive id that has no committed match or
differs from it structurally; each group is in staged-list order, and every
create precedes every update (the creates are a prefix of the call list). -/
theorem handleApply_partition_order (st cm : List Device) (sv : Server)
    (hsucc : (handleApply st cm sv).outcome = .success) :
    (handleApply st cm sv).calls
        = (newDevicesOf st).map (fun d => NetCall.create (toBackendData d))
          ++ (stagedUpdates st cm).map
              (fun d => NetCall.update d.id (toBackendData d))
    ∧ (∀ d : Device, d ∈ newDevicesOf st ↔ d ∈ st ∧ d.id < 0)
    ∧ (∀ d : Device, d ∈ stagedUpdates st cm
        ↔ d ∈ st ∧ 0 < d.id
          ∧ (cm.find? (fun org => org.id == d.id) = none
             ∨ ∃ org, cm.find? (fun org2 => org2.id == d.id) = some org ∧ d ≠ org))
    ∧ ((handleApply st cm sv).calls.filter NetCall.isCreate)
        ++ ((handleApply st cm sv).calls.filter NetCall.isUpdate)
        = (handleApply st cm sv).calls := by
  have hcalls : (handleApply st cm sv).calls
      = (newDevicesOf st).map (fun d => NetCall.create (toBackendData d))
        ++ (stagedUpdates st cm).map
            (fun d => NetCall.update d.id (toBackendData d)) := by
    by_cases hc : (countActiveDevices st).1 < 1 ∨ (countActiveDevices st).2 < 1
    · exfalso
      simp only [handleApply] at hsucc
      rw [if_pos hc] at hsucc
      exact ApplyOutcome.noConfusion hsucc
    · by_cases hne : (newDevicesOf st).isEmpty && (stagedUpdates st cm).isEmpty
      · exfalso
        simp only [handleApply] at hsucc
        rw [if_neg hc, if_pos hne] at hsucc
        exact ApplyOutcome.noConfusion hsucc
      · by_cases hok : (runUpdates (runCreates sv (newDevicesOf st)).1
            (stagedUpdates st cm)).2.1
        · simp only [handleApply]
          rw [if_neg hc, if_neg hne, if_pos hok]
          simp only []
          rw [runCreates_snd_calls, runUpdates_snd_calls _ _ hok]
        · exfalso
          simp only [handleApply] at hsucc
          rw [if_neg hc, if_neg hne, if_neg hok] at hsucc
          exact ApplyOutcome.noConfusion hsucc
  refine ⟨hcalls, ?_, ?_, ?_⟩
  · intro d
    unfold newDevicesOf
    rw [List.mem_filter]
    simp
  · intro d
    unfold stagedUpdates
    rw [List.mem_filter, updFlag_iff]
  · rw [hcalls, List.filter_append, List.filter_append]
    have hA : ((newDevicesOf st).map
        (fun d => NetCall.create (toBackendData d))).filter NetCall.isCreate
        = (newDevicesOf st).map (fun d => NetCall.create (toBackendData d)) :=
      List.filter_eq_self.mpr (by
        intro c hcm
        rcases List.mem_map.mp hcm with ⟨d, _, rfl⟩
        rfl)
    have hB : ((stagedUpdates st cm).map
        (fun d => NetCall.update d.id (toBackendData d))).filter NetCall.isCreate
        = [] :=
      List.filter_eq_nil_iff.mpr (by
        intro c hcm
        rcases List.mem_map.mp hcm with ⟨d, _, rfl⟩
        simp [NetCall.isCreate])
    have hC : ((newDevicesOf st).map
        (fun d => NetCall.create (toBackendData d))).filter NetCall.isUpdate
        = [] :=
      List.filter_eq_nil_iff.mpr (by
        intro c hcm
        rcases List.mem_map.mp hcm with ⟨d, _, rfl⟩
        simp [NetCall.isUpdate])
    have hD : ((stagedUpdates st cm).map
        (fun d => NetCall.update d.id (toBackendData d))).filter NetCall.isUpdate
        = (stagedUpdates st cm).map (fun d => NetCall.update d.id (toBackendData d)) :=
      List.filter_eq_self.mpr (by
        intro c hcm
        rcases List.mem_map.mp hcm with ⟨d, _, rfl⟩
        rfl)
    rw [hA, hB, hC, hD, List.append_nil, List.nil_append]

/-- Witness for C4: applying a staged list with one pending create (id -5)
and one pending update (id 2, renamed) succeeds, and the theorem's
partition and order statements hold for it. -/
theorem handleApply_partition_order_witness :
    (handleApply [tmpNeg, rxW, txWs] [rxW, txWc]
        { devices := [rxW, txWc], nextId := 3 }).outcome = .success
    ∧ ((handleApply [tmpNeg, rxW, txWs] [rxW, txWc]
          { devices := [rxW, txWc], nextId := 3 }).calls
        = (newDevicesOf [tmpNeg, rxW, txWs]).map
            (fun d => NetCall.create (toBackendData d))
          ++ (stagedUpdates [tmpNeg, rxW, txWs] [rxW, txWc]).map
              (fun d => NetCall.update d.id (toBackendData d))
      ∧ (∀ d : Device, d ∈ newDevicesOf [tmpNeg, rxW, txWs]
          ↔ d ∈ [tmpNeg, rxW, txWs] ∧ d.id < 0)
      ∧ (∀ d : Device, d ∈ stagedUpdates [tmpNeg, rxW, txWs] [rxW, txWc]
          ↔ d ∈ [tmpNeg, rxW, txWs] ∧ 0 < d.id
            ∧ ([rxW, txWc].find? (fun org => org.id == d.id) = none
               ∨ ∃ org, [rxW, txWc].find? (fun org2 => org2.id == d.id) = some org
                  ∧ d ≠ org))
      ∧ ((handleApply [tmpNeg, rxW, txWs] [rxW, txWc]
            { devices := [rxW, txWc], nextId := 3 }).calls.filter NetCall.isCreate)
          ++ ((handleApply [tmpNeg, rxW, txWs] [rxW, txWc]
            { devices := [rxW, txWc], nextId := 3 }).calls.filter NetCall.isUpdate)
          = (handleApply [tmpNeg, rxW, txWs] [rxW, txWc]
            { devices := [rxW, txWc], nextId := 3 }).calls) :=
  ⟨by decide,
   handleApply_partition_order [tmpNeg, rxW, txWs] [rxW, txWc]
     { devices := [rxW, txWc], nextId := 3 } (by decide)⟩

/-- Counterexample for C4 as stated: a persisted device with id 0 whose
staged copy differs from its committed match is placed in neither
partition — the run proceeds (the invariant holds on the staged list) but
detects no change and issues no update call for it, against the claim that
to-update holds exactly the id ≥ 0 devices that differ. -/
theorem handleApply_partition_zero_id_counterexample :
    zTxStaged.id = 0
    ∧ zTxStaged ≠ zTxCommitted
    ∧ [zTxCommitted, zRxCommitted].find?
        (fun org => org.id == zTxStaged.id) = some zTxCommitted
    ∧ (countActiveDevices [zTxStaged, zRxCommitted]).1 = 1
    ∧ (countActiveDevices [zTxStaged, zRxCommitted]).2 = 1
    ∧ stagedUpdates [zTxStaged, zRxCommitted] [zTxCommitted, zRxCommitted] = []
    ∧ (handleApply [zTxStaged, zRxCommitted] [zTxCommitted, zRxCommitted]
        { devices := [zTxCommitted, zRxCommitted], nextId := 2 }).outcome
        = .noChanges
    ∧ (handleApply [zTxStaged, zRxCommitted] [zTxCommitted, zRxCommitted]
        { devices := [zTxCommitted, zRxCommitted], nextId := 2 }).calls = [] := by
  decide

/-- Calibration constant `COORDINATE_TRANSFORM.offsetX = 579`
(`SceneViewer.tsx`). -/
def coordOffsetX : ℚ := 579

/-- Calibration constant `COORDINATE_TRANSFORM.offsetY = 511`
(`SceneViewer.tsx`). -/
def coordOffsetY : ℚ := 511

/-- Calibration constant `COORDINATE_TRANSFORM.scale = 1.2`
(`SceneViewer.tsx`). -/
def coordScale : ℚ := 6/5

/-- `actualScale` of the contain fit: `min(Rw/W, Rh/H)`
(`SceneViewer.tsx`, both coordinate helpers). -/
def containScale (renderedW renderedH naturalW naturalH : ℚ) : ℚ :=
  min (renderedW / naturalW) (renderedH / naturalH)

/-- Width of the image as displayed inside the element. -/
def displayedWidth (renderedW renderedH naturalW naturalH : ℚ) : ℚ :=
  naturalW * containScale renderedW renderedH naturalW naturalH

/-- Height of the image as displayed inside the element. -/
def displayedHeight (renderedW renderedH naturalW naturalH : ℚ) : ℚ :=
  naturalH * containScale renderedW renderedH naturalW naturalH

/-- Horizontal letterbox margin (`offsetX_render` in the source). -/
def renderMarginX (renderedW renderedH naturalW naturalH : ℚ) : ℚ :=
  (renderedW - displayedWidth renderedW renderedH naturalW naturalH) / 2

/-- Vertical letterbox margin (`offsetY_render` in the source). -/
def renderMarginY (renderedW renderedH naturalW naturalH : ℚ) : ℚ :=
  (renderedH - displayedHeight renderedW renderedH naturalW naturalH) / 2

/-- `imageToSceneCoords` (`SceneViewer.tsx` lines 144-200): element-relative
mouse position to integer scene coordinates, `none` when the position is
outside the letterboxed image content. -/
def imageToSceneCoords (mouseX mouseY renderedW renderedH naturalW naturalH : ℚ) :
    Option (ℤ × ℤ) :=
  if naturalW = 0 ∨ naturalH = 0 then none
  else
    let actualScale := containScale renderedW renderedH naturalW naturalH
    let mouseXinDisplayed :=
      mouseX - renderMarginX renderedW renderedH naturalW naturalH
    let mouseYinDisplayed :=
      mouseY - renderMarginY renderedW renderedH naturalW naturalH
    if mouseXinDisplayed < 0
        ∨ mouseXinDisplayed > displayedWidth renderedW renderedH naturalW naturalH
        ∨ mouseYinDisplayed < 0
        ∨ mouseYinDisplayed > displayedHeight renderedW renderedH naturalW naturalH
    then none
    else
      let originalImageX := mouseXinDisplayed / actualScale
      let originalImageY := mouseYinDisplayed / actualScale
      some (jround ((originalImageX - coordOffsetX) / coordScale),
            jround ((originalImageY - coordOffsetY) / coordScale))

/-- `sceneToImageCoords` (`SceneViewer.tsx` lines 203-250): scene
coordinates to element-relative (rounded) pixel coordinates; `none` when
the natural size is unavailable or zero. -/
def sceneToImageCoords (sceneX sceneY naturalW naturalH renderedW renderedH : ℚ) :
    Option (ℤ × ℤ) :=
  if naturalW = 0 ∨ naturalH = 0 then none
  else
    let originalImageX := sceneX * coordScale + coordOffsetX
    let originalImageY := sceneY * coordScale + coordOffsetY
    let actualScale := containScale renderedW renderedH naturalW naturalH
    let mouseXinDisplayed := originalImageX * actualScale
    let mouseYinDisplayed := originalImageY * actualScale
    some (jround (mouseXinDisplayed
            + renderMarginX renderedW renderedH naturalW naturalH),
          jround (mouseYinDisplayed
            + renderMarginY renderedW renderedH naturalW naturalH))

lemma jround_le (x : ℚ) : (jround x : ℚ) ≤ x + 1/2 := by
  unfold jround
  exact_mod_cast Int.floor_le (x + 1/2)

lemma lt_jround (x : ℚ) : x - 1/2 < (jround x : ℚ) := by
  unfold jround
  have h := Int.sub_one_lt_floor (x + 1/2)
  push_cast at h ⊢
  linarith

lemma roundTrip1D (s m c : ℚ) (hs : 5/6 < s) (z : ℤ) :
    jround ((((jround (((z : ℚ) * coordScale + c) * s + m) : ℚ) - m) / s - c)
      / coordScale) = z := by
  have hs0 : 0 < s := lt_trans (by norm_num) hs
  set x : ℚ := ((z : ℚ) * coordScale + c) * s + m with hxdef
  set p : ℚ := (jround x : ℚ) with hpdef
  have h1 : p ≤ x + 1/2 := jround_le x
  have h2 : x - 1/2 < p := lt_jround x
  have ht : ((p - m) / s - c) / coordScale = (z : ℚ) + (p - x) * (5 / (6 * s)) := by
    rw [hxdef]
    unfold coordScale
    field_simp
    ring
  rw [ht]
  have hq0 : 0 < 5 / (6 * s) := by positivity
  have hq1 : 5 / (6 * s) < 1 := by
    rw [div_lt_one (by positivity)]
    nlinarith
  unfold jround
  rw [Int.floor_eq_iff]
  constructor
  · have hmul : (-(1/2)) * (5 / (6 * s)) < (p - x) * (5 / (6 * s)) :=
      mul_lt_mul_of_pos_right (by linarith) hq0
    nlinarith
  · have hmul : (p - x) * (5 / (6 * s)) ≤ (1/2) * (5 / (6 * s)) :=
      mul_le_mul_of_nonneg_right (by linarith) hq0.le
    nlinarith

/-- C3 (amended): for integer scene coordinates whose Scene-to-Pixel image
lies inside the displayed content area, composing `sceneToImageCoords`
with `imageToSceneCoords` recovers the scene coordinates exactly,
provided the contain-fit scale exceeds 5/6 (so that the half-pixel
rounding of `sceneToImageCoords` stays below half a scene unit). -/
theorem pixelToScene_sceneToPixel_roundtrip
    (sceneX sceneY : ℤ) (naturalW naturalH renderedW renderedH : ℚ)
    (hW : 0 < naturalW) (hH : 0 < naturalH)
    (hs : 5/6 < containScale renderedW renderedH naturalW naturalH)
    (px py : ℤ)
    (hpx : sceneToImageCoords (sceneX : ℚ) (sceneY : ℚ) naturalW naturalH
        renderedW renderedH = some (px, py))
    (hinx : 0 ≤ (px : ℚ) - renderMarginX renderedW renderedH naturalW naturalH
        ∧ (px : ℚ) - renderMarginX renderedW renderedH naturalW naturalH
          ≤ displayedWidth renderedW renderedH naturalW naturalH)
    (hiny : 0 ≤ (py : ℚ) - renderMarginY renderedW renderedH naturalW naturalH
        ∧ (py : ℚ) - renderMarginY renderedW renderedH naturalW naturalH
          ≤ displayedHeight renderedW renderedH naturalW naturalH) :
    imageToSceneCoords (px : ℚ) (py : ℚ) renderedW renderedH naturalW naturalH
      = some (sceneX, sceneY) := by
  have hWne : ¬(naturalW = 0 ∨ naturalH = 0) := by
    push_neg
    exact ⟨ne_of_gt hW, ne_of_gt hH⟩
  simp only [sceneToImageCoords] at hpx
  rw [if_neg hWne] at hpx
  have hpx' := Option.some.inj hpx
  have hx := congrArg Prod.fst hpx'
  have hy := congrArg Prod.snd hpx'
  simp only at hx hy
  simp only [imageToSceneCoords]
  rw [if_neg hWne, if_neg (by
    push_neg
    exact ⟨hinx.1, hinx.2, hiny.1, hiny.2⟩)]
  rw [← hx, ← hy]
  rw [roundTrip1D _ _ _ hs sceneX, roundTrip1D _ _ _ hs sceneY]

lemma jround_eq_of (q : ℚ) (z : ℤ) (h1 : (z : ℚ) ≤ q + 1/2)
    (h2 : q + 1/2 < z + 1) : jround q = z := by
  unfold jround
  rw [Int.floor_eq_iff]
  exact ⟨h1, by exact_mod_cast h2⟩

/-- Witness for C3: at natural size 1200x1100 rendered 1:1 (scale 1), the
origin maps to pixel (579, 511) and back to (0, 0) exactly. -/
theorem pixelToScene_sceneToPixel_roundtrip_witness :
    (5/6 : ℚ) < containScale 1200 1100 1200 1100
    ∧ sceneToImageCoords 0 0 1200 1100 1200 1100 = some (579, 511)
    ∧ imageToSceneCoords 579 511 1200 1100 1200 1100 = some (0, 0) := by
  have hscale : containScale 1200 1100 1200 1100 = 1 := by
    norm_num [containScale]
  have hs : (5/6 : ℚ) < containScale 1200 1100 1200 1100 := by
    rw [hscale]; norm_num
  have hpx : sceneToImageCoords 0 0 1200 1100 1200 1100 = some (579, 511) := by
    simp only [sceneToImageCoords, renderMarginX, renderMarginY,
      displayedWidth, displayedHeight, hscale, coordScale, coordOffsetX,
      coordOffsetY]
    norm_num
    constructor
    · exact jround_eq_of _ _ (by norm_num) (by norm_num)
    · exact jround_eq_of _ _ (by norm_num) (by norm_num)
  refine ⟨hs, hpx, ?_⟩
  have h := pixelToScene_sceneToPixel_roundtrip 0 0 1200 1100 1200 1100
    (by norm_num) (by norm_num) hs 579 511 (by exact_mod_cast hpx)
    (by rw [renderMarginX, displayedWidth, hscale]; norm_num)
    (by rw [renderMarginY, displayedHeight, hscale]; norm_num)
  exact_mod_cast h

/-- Counterexample for C3 as stated: with the image displayed at half its
natural size (scale 1/2 < 5/6), scene point (2,2) maps to pixel (291,257),
which is inside the displayed content area, yet maps back to (3,3). -/
theorem pixelToScene_sceneToPixel_counterexample :
    sceneToImageCoords 2 2 2000 2000 1000 1000 = some (291, 257)
    ∧ (0 ≤ (291 : ℚ) - renderMarginX 1000 1000 2000 2000
       ∧ (291 : ℚ) - renderMarginX 1000 1000 2000 2000
          ≤ displayedWidth 1000 1000 2000 2000)
    ∧ (0 ≤ (257 : ℚ) - renderMarginY 1000 1000 2000 2000
       ∧ (257 : ℚ) - renderMarginY 1000 1000 2000 2000
          ≤ displayedHeight 1000 1000 2000 2000)
    ∧ imageToSceneCoords 291 257 1000 1000 2000 2000 = some (3, 3)
    ∧ ((3 : ℤ), (3 : ℤ)) ≠ ((2 : ℤ), (2 : ℤ)) := by
  have hscale : containScale 1000 1000 2000 2000 = 1/2 := by
    norm_num [containScale]
  refine ⟨?_, ?_, ?_, ?_, by decide⟩
  · simp only [sceneToImageCoords, renderMarginX, renderMarginY,
      displayedWidth, displayedHeight, hscale, coordScale, coordOffsetX,
      coordOffsetY]
    norm_num
    constructor
    · exact jround_eq_of _ _ (by norm_num) (by norm_num)
    · exact jround_eq_of _ _ (by norm_num) (by norm_num)
  · rw [renderMarginX, displayedWidth, hscale]; norm_num
  · rw [renderMarginY, displayedHeight, hscale]; norm_num
  · simp only [imageToSceneCoords, renderMarginX, renderMarginY,
      displayedWidth, displayedHeight, hscale, coordScale, coordOffsetX,
      coordOffsetY]
    norm_num
    exact jround_eq_of _ _ (by norm_num) (by norm_num)

/-- The hover hit-test of `handleMouseMove` (`SceneViewer.tsx` lines
551-632): when the pointer is over image content, the first device (in
list order) whose projected marker is within 5 pixels on both axes is the
hover target; when the pointer is outside image content no device is
hovered. -/
def findHoveredDevice (devices : List Device)
    (mouseX mouseY renderedW renderedH naturalW naturalH : ℚ) : Option ℤ :=
  match imageToSceneCoords mouseX mouseY renderedW renderedH naturalW naturalH with
  | none => none
  | some _ =>
      (devices.find? (fun device =>
        match sceneToImageCoords device.position_x device.position_y
            naturalW naturalH renderedW renderedH with
        | none => false
        | some c =>
            decide (|mouseX - (c.1 : ℚ)| ≤ 5)
              && decide (|mouseY - (c.2 : ℚ)| ≤ 5))).map Device.id

/-- C9: every pointer position whose offset from the letterbox margin falls
outside the displayed content box is mapped to "no position", and the
hover hit-tester reports no hovered device there. -/
theorem imageToScene_outside_letterbox_none (devices : List Device)
    (mouseX mouseY renderedW renderedH naturalW naturalH : ℚ)
    (hout : mouseX - renderMarginX renderedW renderedH naturalW naturalH < 0
      ∨ mouseX - renderMarginX renderedW renderedH naturalW naturalH
          > displayedWidth renderedW renderedH naturalW naturalH
      ∨ mouseY - renderMarginY renderedW renderedH naturalW naturalH < 0
      ∨ mouseY - renderMarginY renderedW renderedH naturalW naturalH
          > displayedHeight renderedW renderedH naturalW naturalH) :
    imageToSceneCoords mouseX mouseY renderedW renderedH naturalW naturalH = none
    ∧ findHoveredDevice devices mouseX mouseY renderedW renderedH naturalW naturalH
        = none := by
  have hnone :
      imageToSceneCoords mouseX mouseY renderedW renderedH naturalW naturalH
        = none := by
    simp only [imageToSceneCoords]
    by_cases hz : naturalW = 0 ∨ naturalH = 0
    · rw [if_pos hz]
    · rw [if_neg hz, if_pos hout]
  refine ⟨hnone, ?_⟩
  simp only [findHoveredDevice, hnone]

/-- Witness for C9: at half scale with no margins, pointer x = -5 is left
of the content box; the mapper yields no position and no device (here one
receiver) is hovered. -/
theorem imageToScene_outside_letterbox_none_witness :
    ((-5 : ℚ) - renderMarginX 1000 1000 2000 2000 < 0
      ∨ (-5 : ℚ) - renderMarginX 1000 1000 2000 2000
          > displayedWidth 1000 1000 2000 2000
      ∨ (10 : ℚ) - renderMarginY 1000 1000 2000 2000 < 0
      ∨ (10 : ℚ) - renderMarginY 1000 1000 2000 2000
          > displayedHeight 1000 1000 2000 2000)
    ∧ (imageToSceneCoords (-5) 10 1000 1000 2000 2000 = none
       ∧ findHoveredDevice [rxW] (-5) 10 1000 1000 2000 2000 = none) := by
  have hout : ((-5 : ℚ) - renderMarginX 1000 1000 2000 2000 < 0
      ∨ (-5 : ℚ) - renderMarginX 1000 1000 2000 2000
          > displayedWidth 1000 1000 2000 2000
      ∨ (10 : ℚ) - renderMarginY 1000 1000 2000 2000 < 0
      ∨ (10 : ℚ) - renderMarginY 1000 1000 2000 2000
          > displayedHeight 1000 1000 2000 2000) := by
    left
    rw [renderMarginX, displayedWidth]
    norm_num [containScale]
  exact ⟨hout,
    imageToScene_outside_letterbox_none [rxW] (-5) 10 1000 1000 2000 2000 hout⟩

/-- Little-endian base-10 digits of `n`, with explicit fuel so that the
recursion is structural (the fuel `n` itself always suffices). -/
def natDigitsAux : ℕ → ℕ → List ℕ
  | 0, _ => []
  | _ + 1, 0 => []
  | fuel + 1, n + 1 => (n + 1) % 10 :: natDigitsAux fuel ((n + 1) / 10)

/-- Value of a little-endian digit list. -/
def ofDigitsLE : List ℕ → ℕ
  | [] => 0
  | d :: ds => d + 10 * ofDigitsLE ds

lemma natDigitsAux_ofDigits : ∀ fuel n, n ≤ fuel →
    ofDigitsLE (natDigitsAux fuel n) = n := by
  intro fuel
  induction fuel with
  | zero =>
      intro n hn
      have : n = 0 := by omega
      subst this
      rfl
  | succ f ih =>
      intro n hn
      cases n with
      | zero => rfl
      | succ m =>
          have hdiv : (m + 1) / 10 < m + 1 := Nat.div_lt_self (Nat.succ_pos m)
            (by norm_num)
          simp only [natDigitsAux, ofDigitsLE]
          rw [ih ((m + 1) / 10) (by omega)]
          exact Nat.mod_add_div (m + 1) 10

lemma natDigitsAux_lt10 : ∀ fuel n, ∀ d ∈ natDigitsAux fuel n, d < 10 := by
  intro fuel
  induction fuel with
  | zero => intro n d hd; cases hd
  | succ f ih =>
      intro n d hd
      cases n with
      | zero => cases hd
      | succ m =>
          rcases List.mem_cons.mp hd with rfl | hmem
          · exact Nat.mod_lt _ (by norm_num)
          · exact ih _ d hmem

/-- Decimal string of a natural number, as JavaScript template interpolation
renders it (used for the auto-generated device name suffixes). -/
def natStr (n : ℕ) : String :=
  if n = 0 then "0"
  else String.mk (((natDigitsAux n n).map Nat.digitChar).reverse)

lemma digitChar_inj_lt : ∀ a, a < 10 → ∀ b, b < 10 →
    Nat.digitChar a = Nat.digitChar b → a = b := by decide

lemma map_digitChar_inj : ∀ (l1 l2 : List ℕ), (∀ x ∈ l1, x < 10) →
    (∀ x ∈ l2, x < 10) → l1.map Nat.digitChar = l2.map Nat.digitChar →
    l1 = l2 := by
  intro l1
  induction l1 with
  | nil =>
      intro l2 _ _ h
      cases l2 with
      | nil => rfl
      | cons b s => simp at h
  | cons a t ih =>
      intro l2 h1 h2 h
      cases l2 with
      | nil => simp at h
      | cons b s =>
          simp only [List.map_cons, List.cons.injEq] at h
          have hab := digitChar_inj_lt a (h1 a (List.mem_cons_self _ _))
            b (h2 b (List.mem_cons_self _ _)) h.1
          rw [hab, ih s (fun x hx => h1 x (List.mem_cons_of_mem _ hx))
            (fun x hx => h2 x (List.mem_cons_of_mem _ hx)) h.2]

lemma natStr_inj_pos : ∀ a b : ℕ, 0 < a → 0 < b → natStr a = natStr b →
    a = b := by
  intro a b ha hb h
  unfold natStr at h
  rw [if_neg (by omega), if_neg (by omega)] at h
  have hdata : ((natDigitsAux a a).map Nat.digitChar).reverse
      = ((natDigitsAux b b).map Nat.digitChar).reverse := congrArg String.data h
  have hmap := List.reverse_injective hdata
  have hdig := map_digitChar_inj _ _ (natDigitsAux_lt10 a a)
    (natDigitsAux_lt10 b b) hmap
  calc a = ofDigitsLE (natDigitsAux a a) := (natDigitsAux_ofDigits a a le_rfl).symm
    _ = ofDigitsLE (natDigitsAux b b) := by rw [hdig]
    _ = b := natDigitsAux_ofDigits b b le_rfl

lemma string_append_left_cancel {p s t : String} (h : p ++ s = p ++ t) :
    s = t := by
  have hd := congrArg String.data h
  rw [String.data_append, String.data_append] at hd
  have := List.append_cancel_left hd
  cases s
  cases t
  exact congrArg String.mk this

lemma exists_fresh_name (names : List String) (p : String) :
    ∃ k, 1 ≤ k ∧ k ≤ names.length + 1 ∧ (p ++ natStr k) ∉ names := by
  by_contra hcon
  push_neg at hcon
  have hinj : ∀ a ∈ Finset.Icc 1 (names.length + 1),
      ∀ b ∈ Finset.Icc 1 (names.length + 1),
      p ++ natStr a = p ++ natStr b → a = b := by
    intro a ha b hb hab
    have ha1 := (Finset.mem_Icc.mp ha).1
    have hb1 := (Finset.mem_Icc.mp hb).1
    exact natStr_inj_pos a b (by omega) (by omega)
      (string_append_left_cancel hab)
  have hsub : (Finset.Icc 1 (names.length + 1)).image (fun k => p ++ natStr k)
      ⊆ names.toFinset := by
    intro s hs
    rcases Finset.mem_image.mp hs with ⟨k, hk, rfl⟩
    have hk' := Finset.mem_Icc.mp hk
    exact List.mem_toFinset.mpr (hcon k hk'.1 hk'.2)
  have hcard1 : ((Finset.Icc 1 (names.length + 1)).image
      (fun k => p ++ natStr k)).card = names.length + 1 := by
    rw [Finset.card_image_of_injOn hinj, Nat.card_Icc]
    omega
  have hcard2 := Finset.card_le_card hsub
  have hcard3 := names.toFinset_card_le
  omega

/-- The name-search loop of `handleAddDevice` (`App.tsx` lines 444-450):
starting at index `ix`, return the first index whose generated name is not
among the existing names; fuel bounds the iteration (one more than the
number of names always suffices). -/
def findNameIdxAux (names : List String) (p : String) : ℕ → ℕ → ℕ
  | 0, ix => ix
  | fuel + 1, ix =>
      if (p ++ natStr ix) ∈ names then findNameIdxAux names p fuel (ix + 1)
      else ix

lemma findNameIdxAux_spec (names : List String) (p : String) :
    ∀ fuel ix, (∃ k, ix ≤ k ∧ k ≤ ix + fuel ∧ (p ++ natStr k) ∉ names) →
      ix ≤ findNameIdxAux names p fuel ix
      ∧ (p ++ natStr (findNameIdxAux names p fuel ix)) ∉ names
      ∧ ∀ m, ix ≤ m → m < findNameIdxAux names p fuel ix →
          (p ++ natStr m) ∈ names := by
  intro fuel
  induction fuel with
  | zero =>
      intro ix hex
      rcases hex with ⟨k, hk1, hk2, hk3⟩
      have h0 : findNameIdxAux names p 0 ix = ix := rfl
      rw [h0]
      have hfresh : (p ++ natStr ix) ∉ names := by
        have hki : k = ix := by omega
        rwa [hki] at hk3
      exact ⟨le_refl _, hfresh, fun m h1 h2 => absurd h2 (by omega)⟩
  | succ f ih =>
      intro ix hex
      rcases hex with ⟨k, hk1, hk2, hk3⟩
      by_cases hmem : (p ++ natStr ix) ∈ names
      · have hkne : k ≠ ix := fun he => hk3 (he ▸ hmem)
        have hrec := ih (ix + 1) ⟨k, by omega, by omega, hk3⟩
        rw [findNameIdxAux, if_pos hmem]
        refine ⟨by omega, hrec.2.1, ?_⟩
        intro m h1 h2
        rcases Nat.eq_or_lt_of_le h1 with rfl | h1'
        · exact hmem
        · exact hrec.2.2 m (by omega) h2
      · rw [findNameIdxAux, if_neg hmem]
        exact ⟨le_refl _, hmem, fun m h1 h2 => absurd h2 (by omega)⟩

/-- `getPrefix` (`App.tsx` lines 424-435): role to device-name prefix. -/
def getPfx (role : String) : String :=
  if role == "desired" then "tx"
  else if role == "receiver" then "rx"
  else if role == "jammer" then "jam"
  else "device"

/-- `handleAddDevice` (`App.tsx` lines 419-473).  `rand` models the value
`Math.floor(Math.random() * 1000000)`; the temporary id is `-rand - 1`.
The default role is `receiver`; the name is the first free `rx{i}`. -/
def handleAddDevice (tempDevices : List Device) (rand : ℕ) : List Device :=
  let tempId : ℤ := -(rand : ℤ) - 1
  let existingNames := tempDevices.map Device.name
  let pfxStr := getPfx "receiver"
  let ix := findNameIdxAux existingNames pfxStr (existingNames.length + 1) 1
  let newName := pfxStr ++ natStr ix
  let newDevice : Device := { id := tempId, name := newName, position_x := 0, position_y := 0, position_z := 40, orientation_x := some 0, orientation_y := some 0, orientation_z := some 0, power_dbm := some 0, active := true, role := "receiver" }
  tempDevices ++ [newDevice]

/-- C5 (amended): `handleAddDevice` appends exactly one staged device with
a negative id and role `receiver` whose name is `rx{n}` for the smallest
index `n ≥ 1` that collides with no existing staged device name; the name
is fresh by construction (the id, drawn at random, is negative but not
guaranteed distinct from existing ids, and the role is always `receiver`). -/
theorem handleAddDevice_appends_fresh_name (tempDevices : List Device)
    (rand : ℕ) :
    ∃ nd : Device,
      handleAddDevice tempDevices rand = tempDevices ++ [nd]
      ∧ nd.id < 0
      ∧ nd.role = "receiver"
      ∧ nd.name ∉ tempDevices.map Device.name
      ∧ ∃ n, 1 ≤ n ∧ nd.name = "rx" ++ natStr n
          ∧ ∀ m, 1 ≤ m → m < n →
              ("rx" ++ natStr m) ∈ tempDevices.map Device.name := by
  have hpfx : getPfx "receiver" = "rx" := by decide
  obtain ⟨k, hk1, hk2, hk3⟩ :=
    exists_fresh_name (tempDevices.map Device.name) "rx"
  have hspec := findNameIdxAux_spec (tempDevices.map Device.name) "rx"
    ((tempDevices.map Device.name).length + 1) 1 ⟨k, hk1, by omega, hk3⟩
  refine ⟨{ id := -(rand : ℤ) - 1, name := "rx" ++ natStr (findNameIdxAux (tempDevices.map Device.name) "rx" ((tempDevices.map Device.name).length + 1) 1), position_x := 0, position_y := 0, position_z := 40, orientation_x := some 0, orientation_y := some 0, orientation_z := some 0, power_dbm := some 0, active := true, role := "receiver" }, ?_, (by omega : -(rand : ℤ) - 1 < 0), rfl, hspec.2.1, ?_⟩
  · simp only [handleAddDevice, hpfx]
  · exact ⟨_, hspec.1, rfl, hspec.2.2⟩

def rx3Dev : Device := mkDev 3 "rx3" true "receiver"

/-- Witness for C5: adding a device next to the single receiver `rx1`
appends one fresh receiver with a negative id and the least free name. -/
theorem handleAddDevice_appends_fresh_name_witness :
    ∃ nd : Device,
      handleAddDevice [rxW] 5 = [rxW] ++ [nd]
      ∧ nd.id < 0
      ∧ nd.role = "receiver"
      ∧ nd.name ∉ [rxW].map Device.name
      ∧ ∃ n, 1 ≤ n ∧ nd.name = "rx" ++ natStr n
          ∧ ∀ m, 1 ≤ m → m < n →
              ("rx" ++ natStr m) ∈ [rxW].map Device.name :=
  handleAddDevice_appends_fresh_name [rxW] 5

/-- Counterexample for C5 as stated: with existing names `rx1` and `rx3`
the claim prescribes `rx4` (one more than the highest numeric suffix 3),
but the code fills the first gap and generates `rx2`. -/
theorem handleAddDevice_name_counterexample :
    handleAddDevice [rxW, rx3Dev] 0
      = [rxW, rx3Dev, mkDev (-1) "rx2" true "receiver"]
    ∧ "rx3" ∈ [rxW, rx3Dev].map Device.name
    ∧ ("rx2" : String) ≠ "rx4" := by
  decide

/-- Local state of `useSceneImageManager`
(`useSceneImageManager.ts` lines 8-18). -/
structure ImgState where
  imageUrl : Option String
  isLoading : Bool
  error : Option String
  usingFallback : Bool
  retryCount : ℕ
  manualRetryMode : Bool
deriving DecidableEq, Repr

/-- Initial hook state (the `useState` initialisers). -/
def initialImgState : ImgState :=
  { imageUrl := none, isLoading := true, error := none, usingFallback := false
    retryCount := 0, manualRetryMode := false }

/-- Outcome of one fetch: a decoded non-empty image, a non-cancelled
failure (HTTP error, empty blob or network error), or a cancellation. -/
inductive FetchOutcome where
  | success (url : String)
  | failure
  | aborted
deriving DecidableEq, Repr

/-- The last-known-good static image path (`FALLBACK_IMAGE_PATH`). -/
def fallbackImagePath : String := "/rendered_images/scene_with_devices.png"

/-- One complete run of `fetchImage` (`useSceneImageManager.ts` lines
23-138) over the hook state: the call first sets loading and clears the
error and fallback flags; a success stores the object URL and resets the
retry counter and manual-retry mode; a non-cancelled failure records an
error (modelled by a fixed marker string) and increments the counter, and
once the new count exceeds 3 switches to the static fallback image and
manual-retry mode; a cancelled run mutates nothing further (its `finally`
clause skips `setIsLoading(false)` when aborted). -/
def fetchImageStep (s : ImgState) (o : FetchOutcome) : ImgState :=
  let s0 := { s with isLoading := true, error := none, usingFallback := false }
  match o with
  | .aborted => s0
  | .success url =>
      { s0 with imageUrl := some url, retryCount := 0,
                manualRetryMode := false, isLoading := false }
  | .failure =>
      let newCount := s.retryCount + 1
      if newCount > 3 then
        { s0 with error := some "Error loading image",
                  retryCount := newCount, usingFallback := true,
                  imageUrl := some fallbackImagePath,
                  manualRetryMode := true, isLoading := false }
      else
        { s0 with error := some "Error loading image",
                  retryCount := newCount, isLoading := false }

/-- C6 (amended): every non-cancelled failure increments the retry counter;
only once the counter exceeds 3 (that is, on the fourth consecutive
failure) does the hook switch to the static fallback image and
manual-retry mode — no automatic retry is ever scheduled by this hook; a
failure at or below the threshold leaves manual-retry mode unchanged; a
success resets the counter to 0 and clears manual-retry mode and the
fallback flag; a cancelled run leaves counter and manual-retry mode
untouched. -/
theorem fetchImage_retry_threshold (s : ImgState) (url : String) :
    (fetchImageStep s .failure).retryCount = s.retryCount + 1
    ∧ (s.retryCount + 1 > 3 →
        fetchImageStep s .failure
          = { imageUrl := some fallbackImagePath, isLoading := false,
              error := some "Error loading image", usingFallback := true,
              retryCount := s.retryCount + 1, manualRetryMode := true })
    ∧ (s.retryCount + 1 ≤ 3 →
        (fetchImageStep s .failure).manualRetryMode = s.manualRetryMode
        ∧ (fetchImageStep s .failure).usingFallback = false
        ∧ (fetchImageStep s .failure).imageUrl = s.imageUrl)
    ∧ fetchImageStep s (.success url)
        = { imageUrl := some url, isLoading := false, error := none,
            usingFallback := false, retryCount := 0, manualRetryMode := false }
    ∧ (fetchImageStep s .aborted).retryCount = s.retryCount
    ∧ (fetchImageStep s .aborted).manualRetryMode = s.manualRetryMode := by
  refine ⟨?_, ?_, ?_, rfl, rfl, rfl⟩
  · by_cases h : s.retryCount + 1 > 3 <;> simp [fetchImageStep, h]
  · intro h
    simp [fetchImageStep, h]
  · intro h
    have h' : ¬ (s.retryCount + 1 > 3) := by omega
    simp [fetchImageStep, h']

/-- The loader state after three recorded consecutive failures. -/
def threeFailState : ImgState :=
  { imageUrl := none, isLoading := false,
    error := some "Error loading image", usingFallback := false,
    retryCount := 3, manualRetryMode := false }

/-- Witness for C6 (amended): from a state with three recorded failures, a
fourth failure enters fallback/manual-retry mode. -/
theorem fetchImage_retry_threshold_witness :
    ((3 : ℕ) + 1 > 3)
    ∧ ((fetchImageStep threeFailState .failure).retryCount
          = threeFailState.retryCount + 1
      ∧ fetchImageStep threeFailState .failure
          = { imageUrl := some fallbackImagePath, isLoading := false,
              error := some "Error loading image", usingFallback := true,
              retryCount := threeFailState.retryCount + 1,
              manualRetryMode := true }) :=
  ⟨by decide,
   (fetchImage_retry_threshold threeFailState "u").1,
   (fetchImage_retry_threshold threeFailState "u").2.1 (by decide)⟩

/-- Counterexample for C6 as stated: after exactly 3 consecutive
non-cancelled failures from the initial state the hook has neither entered
fallback mode nor manual-retry mode (the counter must exceed 3, so the
switch happens on the 4th failure, not the 3rd). -/
theorem fetchImage_three_failures_counterexample :
    (fetchImageStep (fetchImageStep (fetchImageStep initialImgState
        .failure) .failure) .failure).retryCount = 3
    ∧ (fetchImageStep (fetchImageStep (fetchImageStep initialImgState
        .failure) .failure) .failure).manualRetryMode = false
    ∧ (fetchImageStep (fetchImageStep (fetchImageStep initialImgState
        .failure) .failure) .failure).usingFallback = false
    ∧ (fetchImageStep (fetchImageStep (fetchImageStep (fetchImageStep
        initialImgState .failure) .failure) .failure) .failure).manualRetryMode
      = true := by
  decide

/-- Numeric value of a big-endian list of decimal digit characters. -/
def digitsToNat (cs : List Char) : ℕ :=
  cs.foldl (fun acc c => acc * 10 + (c.toNat - '0'.toNat)) 0

/-- Model of JavaScript `parseFloat` on the inputs relevant here: skip
leading whitespace, read an optional sign, decimal digits with an optional
fraction part and an optional exponent, ignore any trailing characters;
`none` when no digit is found (`NaN`).  The `Infinity` literal is outside
the modelled subset. -/
def parseFloat (s : String) : Option ℚ :=
  let cs0 := s.data.dropWhile (fun c => [' ', '\t', '\n', '\r'].contains c)
  let sgncs : ℚ × List Char :=
    match cs0 with
    | '-' :: rest => (-1, rest)
    | '+' :: rest => (1, rest)
    | _ => (1, cs0)
  let intDigits := sgncs.2.takeWhile Char.isDigit
  let cs2 := sgncs.2.drop intDigits.length
  let fraccs : List Char × List Char :=
    match cs2 with
    | '.' :: rest =>
        (rest.takeWhile Char.isDigit, rest.drop (rest.takeWhile Char.isDigit).length)
    | _ => ([], cs2)
  if intDigits.isEmpty && fraccs.1.isEmpty then none
  else
    let mant : ℚ := (digitsToNat intDigits : ℚ)
      + (digitsToNat fraccs.1 : ℚ) / (10 : ℚ) ^ fraccs.1.length
    let expVal : ℤ :=
      match fraccs.2 with
      | c :: rest =>
          if c = 'e' ∨ c = 'E' then
            let esgn : ℤ × List Char :=
              match rest with
              | '-' :: r => (-1, r)
              | '+' :: r => (1, r)
              | _ => (1, rest)
            let eds := esgn.2.takeWhile Char.isDigit
            if eds.isEmpty then 0 else esgn.1 * (digitsToNat eds : ℤ)
          else 0
      | [] => 0
    some (sgncs.1 * mant * (10 : ℚ) ^ expVal)

/-- Accumulator pass of `jsSplitSlash`. -/
def splitOnSlashAux : List Char → List Char → List String
  | [], acc => [String.mk acc.reverse]
  | c :: rest, acc =>
      if c = '/' then String.mk acc.reverse :: splitOnSlashAux rest []
      else splitOnSlashAux rest (c :: acc)

/-- JavaScript `value.split('/')`: the segments between slashes, keeping
empty segments (so `"1/" ↦ ["1", ""]` and `"" ↦ [""]`). -/
def jsSplitSlash (s : String) : List String := splitOnSlashAux s.data []

/-- A device orientation value as produced by the sidebar: either a plain
parsed float `q`, or `q·π` from the fraction form.  The two constructors
denote distinct reals for the nonzero values arising here, as π is
irrational; keeping the π factor symbolic makes the model exact. -/
inductive OrientVal where
  | plain (q : ℚ)
  | piMul (q : ℚ)
deriving DecidableEq, Repr

/-- The pair of sidebar states an orientation input drives: the raw text
buffer (`orientationInputs`) and the device's orientation value. -/
structure OrientInputState where
  rawText : String
  value : OrientVal
deriving DecidableEq, Repr

/-- `handleOrientationInput` (`Sidebar.tsx` lines 218-259) for one axis:
the local text buffer always receives the typed string; the device value
is updated only when the input parses — fraction `a/b` (exactly two
slash-separated parts, both parsing, denominator nonzero) becomes
`(a/b)·π`, a plain parse becomes the plain value, anything else leaves
the device value untouched. -/
def handleOrientationInput (st : OrientInputState) (value : String) :
    OrientInputState :=
  let st1 := { st with rawText := value }
  if value.data.contains '/' then
    match jsSplitSlash value with
    | [p0, p1] =>
        match parseFloat p0, parseFloat p1 with
        | some numerator, some denominator =>
            if denominator ≠ 0 then
              { st1 with value := OrientVal.piMul (numerator / denominator) }
            else st1
        | _, _ => st1
    | _ => st1
  else
    match parseFloat value with
    | some numValue => { st1 with value := OrientVal.plain numValue }
    | none => st1

lemma handleOrientationInput_rawText (st : OrientInputState) (value : String) :
    (handleOrientationInput st value).rawText = value := by
  unfold handleOrientationInput
  repeat first
    | rfl
    | split

/-- C7 (amended): the raw text buffer always receives the typed string;
when the input contains a slash it is split on every slash, and only when
exactly two parts result, both parse as floats, and the denominator is
nonzero is the device value set to `(a/b)·π`; otherwise (more or fewer
parts, an unparseable part, or a zero denominator) the device value is
unchanged and no plain-float fallback occurs; when the input has no slash,
a successful plain parse stores the plain value and an unparseable input
changes nothing — no error is raised in any case. -/
theorem handleOrientationInput_parse_policy (st : OrientInputState)
    (value : String) :
    (handleOrientationInput st value).rawText = value
    ∧ (value.data.contains '/' = true →
        (∀ p0 p1, jsSplitSlash value = [p0, p1] →
          (∀ a b, parseFloat p0 = some a → parseFloat p1 = some b → b ≠ 0 →
            (handleOrientationInput st value).value = OrientVal.piMul (a / b))
          ∧ ((parseFloat p0 = none ∨ parseFloat p1 = none
                ∨ parseFloat p1 = some 0) →
            (handleOrientationInput st value).value = st.value))
        ∧ ((jsSplitSlash value).length ≠ 2 →
          (handleOrientationInput st value).value = st.value))
    ∧ (value.data.contains '/' = false →
        (∀ n, parseFloat value = some n →
          (handleOrientationInput st value).value = OrientVal.plain n)
        ∧ (parseFloat value = none →
          (handleOrientationInput st value).value = st.value)) := by
  refine ⟨handleOrientationInput_rawText st value, ?_, ?_⟩
  · intro hc
    have hm : '/' ∈ value.data := by simpa using hc
    constructor
    · intro p0 p1 hsp
      constructor
      · intro a b hp0 hp1 hb
        simp [handleOrientationInput, hm, hsp, hp0, hp1, hb]
      · intro hdis
        rcases hdis with hp0 | hp1 | hp1
        · cases hp1 : parseFloat p1 <;>
            simp [handleOrientationInput, hm, hsp, hp0, hp1]
        · cases hp0 : parseFloat p0 <;>
            simp [handleOrientationInput, hm, hsp, hp0, hp1]
        · cases hp0 : parseFloat p0 <;>
            simp [handleOrientationInput, hm, hsp, hp0, hp1]
    · intro hlen
      rcases hsp : jsSplitSlash value with _ | ⟨p0, _ | ⟨p1, _ | ⟨p2, r⟩⟩⟩
      · simp [handleOrientationInput, hm, hsp]
      · simp [handleOrientationInput, hm, hsp]
      · exact absurd (by rw [hsp]; rfl) hlen
      · simp [handleOrientationInput, hm, hsp]
  · intro hc
    have hm : '/' ∉ value.data := by simpa using hc
    constructor
    · intro n hn
      simp [handleOrientationInput, hm, hn]
    · intro hn
      simp [handleOrientationInput, hm, hn]

/-- Witness for C7 (amended): input `"1/4"` sets the value to `(1/4)·π`;
input `"abc"` updates only the text buffer. -/
theorem handleOrientationInput_parse_policy_witness :
    ("1/4".data.contains '/') = true
    ∧ jsSplitSlash "1/4" = ["1", "4"]
    ∧ parseFloat "1" = some 1
    ∧ parseFloat "4" = some 4
    ∧ (handleOrientationInput { rawText := "0", value := OrientVal.plain 0 }
        "1/4").value = OrientVal.piMul (1 / 4)
    ∧ (handleOrientationInput { rawText := "0", value := OrientVal.plain 0 }
        "abc").rawText = "abc"
    ∧ (handleOrientationInput { rawText := "0", value := OrientVal.plain 0 }
        "abc").value = OrientVal.plain 0 := by
  have hp1 : parseFloat "1" = some 1 := by simp [parseFloat, digitsToNat]
  have hp4 : parseFloat "4" = some 4 := by simp [parseFloat, digitsToNat]
  have habc : parseFloat "abc" = none := by simp [parseFloat]
  refine ⟨by decide, by decide, hp1, hp4, ?_, ?_, ?_⟩
  · exact (((handleOrientationInput_parse_policy
      { rawText := "0", value := OrientVal.plain 0 } "1/4").2.1
        (by decide)).1 "1" "4" (by decide)).1 1 4 hp1 hp4 (by norm_num)
  · exact (handleOrientationInput_parse_policy
      { rawText := "0", value := OrientVal.plain 0 } "abc").1
  · exact ((handleOrientationInput_parse_policy
      { rawText := "0", value := OrientVal.plain 0 } "abc").2.2
        (by decide)).2 habc

/-- Counterexample for C7 as stated: on input `"1/2/3"` (which contains a
slash, whose first-slash split parts `"1"` and `"2/3"` both parse, and
whose plain parse is 1) the claim prescribes a value update, but the code
splits on every slash, finds three parts and leaves the device value
untouched. -/
theorem handleOrientationInput_counterexample :
    handleOrientationInput { rawText := "0", value := OrientVal.plain 0 }
        "1/2/3"
      = { rawText := "1/2/3", value := OrientVal.plain 0 }
    ∧ ("1/2/3".data.contains '/') = true
    ∧ parseFloat "1" = some 1
    ∧ parseFloat "2/3" = some 2
    ∧ parseFloat "1/2/3" = some 1
    ∧ OrientVal.plain 0 ≠ OrientVal.piMul (1 / 2)
    ∧ OrientVal.plain 0 ≠ OrientVal.plain 1 := by
  refine ⟨?_, by decide, by simp [parseFloat, digitsToNat],
    by simp [parseFloat, digitsToNat], by simp [parseFloat, digitsToNat],
    by simp, by simp⟩
  have hsp : jsSplitSlash "1/2/3" = ["1", "2", "3"] := by decide
  have hm : '/' ∈ "1/2/3".data := by decide
  simp [handleOrientationInput, hm, hsp]

/-- Ids of the devices with role `receiver` (`Sidebar.tsx` lines 152-154;
the source also drops `id === null` entries, which cannot arise in this
model where every id is an integer). -/
def receiverIdsOf (devices : List Device) : List ℤ :=
  (devices.filter (fun d => d.role == "receiver")).map Device.id

/-- The selection reconciliation effect of the sidebar (`Sidebar.tsx`
lines 150-178): drop selected ids that are no longer receiver ids; if the
filtered selection is empty, select all current receivers; notify the
parent (second component) exactly when the resulting list differs from
the previous one (the `JSON.stringify` comparison of the source). -/
def reconcileSelection (devices : List Device) (prevSelected : List ℤ) :
    List ℤ × Option (List ℤ) :=
  let currentReceiverDeviceIds := receiverIdsOf devices
  let newSelected :=
    prevSelected.filter (fun i => currentReceiverDeviceIds.contains i)
  let finalSelected :=
    if newSelected.length > 0 then newSelected else currentReceiverDeviceIds
  (finalSelected, if finalSelected ≠ prevSelected then some finalSelected else none)

/-- C8: after reconciliation the selection contains only current receiver
ids; an emptied selection is reset to all receivers whenever receivers
exist; and the selection is never empty while a receiver exists. -/
theorem reconcileSelection_spec (devices : List Device) (prev : List ℤ) :
    (∀ i ∈ (reconcileSelection devices prev).1, i ∈ receiverIdsOf devices)
    ∧ (prev.filter (fun i => (receiverIdsOf devices).contains i) = [] →
        receiverIdsOf devices ≠ [] →
        (reconcileSelection devices prev).1 = receiverIdsOf devices)
    ∧ (receiverIdsOf devices ≠ [] → (reconcileSelection devices prev).1 ≠ []) := by
  refine ⟨?_, ?_, ?_⟩
  · intro i hi
    simp only [reconcileSelection] at hi
    by_cases h : (prev.filter
        (fun i => (receiverIdsOf devices).contains i)).length > 0
    · rw [if_pos h] at hi
      have := List.mem_filter.mp hi
      simpa using this.2
    · rw [if_neg h] at hi
      exact hi
  · intro hfil _
    simp only [reconcileSelection, hfil]
    simp
  · intro hne
    simp only [reconcileSelection]
    by_cases h : (prev.filter
        (fun i => (receiverIdsOf devices).contains i)).length > 0
    · rw [if_pos h]
      exact List.ne_nil_of_length_pos h
    · rw [if_neg h]
      exact hne

/-- Witness for C8: with one receiver (id 1) and a stale selection `[99]`,
the filtered selection is empty and is reset to all receivers, hence
nonempty. -/
theorem reconcileSelection_spec_witness :
    ([99].filter (fun i => (receiverIdsOf [rxW, txWc]).contains i) = []
      ∧ receiverIdsOf [rxW, txWc] ≠ [])
    ∧ (reconcileSelection [rxW, txWc] [99]).1 = receiverIdsOf [rxW, txWc]
    ∧ (reconcileSelection [rxW, txWc] [99]).1 ≠ [] :=
  ⟨⟨by decide, by decide⟩,
   (reconcileSelection_spec [rxW, txWc] [99]).2.1 (by decide) (by decide),
   (reconcileSelection_spec [rxW, txWc] [99]).2.2 (by decide)⟩

/-- `handleBadgeClick` (`Sidebar.tsx` lines 200-215): toggles one receiver
id in the selection and always notifies the parent with the new list (the
source's `deviceId === null` guard cannot fire in this model).  No
select-all reset happens here: it belongs to the device-list effect. -/
def handleBadgeClick (prevSelected : List ℤ) (deviceId : ℤ) :
    List ℤ × Option (List ℤ) :=
  let newSelected :=
    if prevSelected.contains deviceId then
      prevSelected.filter (fun i => i != deviceId)
    else prevSelected ++ [deviceId]
  (newSelected, some newSelected)

/-- C10: a badge click flips membership of exactly the clicked id, always
notifies the parent with the resulting list — including the empty list
when the last selected receiver is deselected, which is not reset here. -/
theorem handleBadgeClick_flips_membership (prev : List ℤ) (d : ℤ) :
    (d ∈ (handleBadgeClick prev d).1 ↔ d ∉ prev)
    ∧ (∀ x : ℤ, x ≠ d →
        (x ∈ (handleBadgeClick prev d).1 ↔ x ∈ prev))
    ∧ (handleBadgeClick prev d).2 = some (handleBadgeClick prev d).1
    ∧ (prev = [d] →
        (handleBadgeClick prev d).1 = []
        ∧ (handleBadgeClick prev d).2 = some []) := by
  by_cases hc : prev.contains d
  · have hd : d ∈ prev := by simpa using hc
    refine ⟨?_, ?_, by simp [handleBadgeClick, hc], ?_⟩
    · simp [handleBadgeClick, hc, hd, List.mem_filter]
    · intro x hx
      simp [handleBadgeClick, hc, hd, List.mem_filter, hx]
    · intro hp
      subst hp
      refine ⟨?_, ?_⟩ <;> simp [handleBadgeClick]
  · have hd : d ∉ prev := by simpa using hc
    refine ⟨?_, ?_, by simp [handleBadgeClick, hc], ?_⟩
    · simp [handleBadgeClick, hc, hd]
    · intro x hx
      simp [handleBadgeClick, hc, hd, hx]
    · intro hp
      subst hp
      exact absurd (by simp) hd

/-- Witness for C10: deselecting the only selected receiver (id 7) yields
the empty selection, which is notified downstream with no reset. -/
theorem handleBadgeClick_flips_membership_witness :
    (([7] : List ℤ) = [7])
    ∧ (handleBadgeClick [7] 7).1 = []
    ∧ (handleBadgeClick [7] 7).2 = some [] :=
  ⟨rfl,
   ((handleBadgeClick_flips_membership [7] 7).2.2.2 rfl).1,
   ((handleBadgeClick_flips_membership [7] 7).2.2.2 rfl).2⟩
